import Mathlib

/-
Shallow embedding of `internal/workerutil/worker.go` (package workerutil).

The worker is a polling loop (`Start`) that acquires a semaphore slot, asks an
optional pre-dequeue hook, dequeues a record from the store, registers it in the
running-ID set, and spawns a handler activity which reports a terminal state
(MarkComplete / MarkErrored / MarkFailed) and then runs a deferred cleanup.
A background heartbeat loop periodically refreshes the claim on all running ids.

External collaborators (store, handler, hooks, the semaphore select) are
modelled by recording the results they return during one call in a `WorkerEnv`;
the control flow operating on those results is translated statement by
statement from the Go source.  Side effects are recorded as an explicit event
trace so that ordering and counting properties can be stated.
-/

/-- Go errors as used by the worker: an identified atom (with the flag that
`errcode.IsNonRetryable` inspects) or a `cockroachdb/errors.Wrap` layer. -/
inductive Err where
  | atom (id : Nat) (msg : String) (nonRetryable : Bool)
  | wrap (msg : String) (inner : Err)
deriving DecidableEq, Repr

/-- The `Error()` method: `errors.Wrap` prefixes its message. -/
def Err.errorMsg : Err → String
  | .atom _ msg _ => msg
  | .wrap msg inner => msg ++ ": " ++ inner.errorMsg

/-- Go `errors.Is(err, target)` for non-nil err and target: compare at every
unwrapping level of `err`. -/
def errorsIsE : Err → Err → Bool
  | e, target =>
    e == target ||
      match e with
      | .wrap _ inner => errorsIsE inner target
      | .atom _ _ _ => false

/-- Go `errors.Is(err, target)` on possibly-nil errors: a nil target matches
exactly a nil err. -/
def errorsIs : Option Err → Option Err → Bool
  | none, none => true
  | none, some _ => false
  | some _, none => false
  | some e, some t => errorsIsE e t

/-- The sentinel `context.Canceled` error returned by `ctx.Err()` after
cancellation (shared by the root context and contexts derived from it). -/
def canceledErr : Err := Err.atom 0 "context canceled" false

/-- The `ErrJobAlreadyExists` sentinel (worker.go:18). -/
def errJobAlreadyExists : Err := Err.atom 1 "job already exists" false

/-- Whether an error is flagged non-retryable, looking through wrap layers. -/
def Err.flagNonRetryable : Err → Bool
  | .atom _ _ nr => nr
  | .wrap _ inner => inner.flagNonRetryable

/-- Modelled from the spec: `errcode.IsNonRetryable` (package
`internal/errcode`, not under src/) reports whether a handler error is
"flagged non-retryable" (spec section 4.5); a nil error carries no flag. -/
def isNonRetryable : Option Err → Bool
  | none => false
  | some e => e.flagNonRetryable

/-- The message extracted by `handleErr.Error()`; only evaluated on non-nil
errors (Go would panic on nil). -/
def goErrMsg : Option Err → String
  | none => "nil error"
  | some e => e.errorMsg

/-- A Go context, observed through its `Err()` value. -/
structure Ctx where
  err : Option Err
deriving DecidableEq, Repr

/-- Result of a store Mark* call: `(marked, err)`. -/
structure MarkResult where
  marked : Bool
  err : Option Err
deriving DecidableEq, Repr

/-- Observable actions of one dequeue-and-handle iteration, in program order.
Mark, PreHandle and PostHandle events record the context value passed. -/
inductive Event where
  | semAcquire
  | preDequeueCall
  | dequeueCall
  | registryAdd (id : Nat) (ok : Bool)
  | metricsInc
  | preHandle (ctx : Ctx) (id : Nat)
  | wgAdd
  | handleCall (ctx : Ctx) (id : Nat)
  | markComplete (ctx : Ctx) (id : Nat)
  | markErrored (ctx : Ctx) (id : Nat) (msg : String)
  | markFailed (ctx : Ctx) (id : Nat) (msg : String)
  | postHandle (ctx : Ctx) (id : Nat)
  | metricsDec
  | semRelease
  | wgDone
  | registryRemove (id : Nat)
deriving DecidableEq, Repr

/-- Terminal mark calls. -/
def isMark : Event → Bool
  | .markComplete _ _ => true
  | .markErrored _ _ _ => true
  | .markFailed _ _ _ => true
  | _ => false

/-- The context argument of a mark call. -/
def markCtxOf : Event → Option Ctx
  | .markComplete c _ => some c
  | .markErrored c _ _ => some c
  | .markFailed c _ _ => some c
  | _ => none

def isPostHandleEv : Event → Bool
  | .postHandle _ _ => true
  | _ => false

def isRemoveEv : Event → Bool
  | .registryRemove _ => true
  | _ => false

def isSemReleaseEv : Event → Bool
  | .semRelease => true
  | _ => false

def isSemAcquireEv : Event → Bool
  | .semAcquire => true
  | _ => false

def isPreDequeueEv : Event → Bool
  | .preDequeueCall => true
  | _ => false

def isDequeueEv : Event → Bool
  | .dequeueCall => true
  | _ => false

def isWgDoneEv : Event → Bool
  | .wgDone => true
  | _ => false

def isWgAddEv : Event → Bool
  | .wgAdd => true
  | _ => false

/-- The observations one `dequeueAndHandle` call makes of its collaborators:
the semaphore select outcome, contexts, hook capabilities and results, the
store's Dequeue result, the running-ID-set Add/Has answers, the handler
outcome, and the Mark* results. -/
structure WorkerEnv where
  rootCtx : Ctx
  handleCtx : Ctx
  hasPreDequeue : Bool
  preDequeueable : Bool
  preDequeueErr : Option Err
  dequeueErr : Option Err
  dequeuedRes : Bool
  recordId : Nat
  addOk : Bool
  hasHooks : Bool
  handleOutcome : Option Err
  registryHasAtCheck : Bool
  markCompleteRes : MarkResult
  markErroredRes : MarkResult
  markFailedRes : MarkResult
  semAcquired : Bool
deriving DecidableEq, Repr

/-- Predicate `isJobCanceled` (worker.go:334-336): the handler error matches the
handler context's error and the id is still in the running ID set. -/
def isJobCanceled (w : WorkerEnv) (handleErr ctxErr : Option Err) : Bool :=
  errorsIs handleErr ctxErr && w.registryHasAtCheck

/-- Method `handle` (worker.go:301-329).  Returns the emitted events and the error
returned to the caller (non-nil only when a Mark* call itself failed).  The
observation wrapper around `ctx` does not change its `Err()`.  Every mark call
passes `w.ctx`, the worker root context, not the handler context. -/
def handle (w : WorkerEnv) (ctx : Ctx) (id : Nat) : List Event × Option Err :=
  let handleErr := w.handleOutcome
  if isNonRetryable handleErr || (handleErr.isSome && isJobCanceled w handleErr ctx.err) then
    ([Event.handleCall ctx id, Event.markFailed w.rootCtx id (goErrMsg handleErr)],
      w.markFailedRes.err.map (Err.wrap "store.MarkFailed"))
  else if handleErr.isSome then
    ([Event.handleCall ctx id, Event.markErrored w.rootCtx id (goErrMsg handleErr)],
      w.markErroredRes.err.map (Err.wrap "store.MarkErrored"))
  else
    ([Event.handleCall ctx id, Event.markComplete w.rootCtx id],
      w.markCompleteRes.err.map (Err.wrap "store.MarkComplete"))

/-- The handler activity spawned at worker.go:275-294: run `handle`, then the
deferred cleanup closure.  Inside that closure PostHandle (with the root
context) runs first, then `defer w.runningIDSet.Remove(...)` is installed,
then the metrics decrement, the semaphore release and `wg.Done()` run, and
finally the inner defer fires: the registry removal is the last action. -/
def handlerActivity (w : WorkerEnv) : List Event :=
  (handle w w.handleCtx w.recordId).1
    ++ (if w.hasHooks then [Event.postHandle w.rootCtx w.recordId] else [])
    ++ [Event.metricsDec, Event.semRelease, Event.wgDone,
        Event.registryRemove w.recordId]

/-- Method `preDequeueHook` (worker.go:339-345): consult the handler's PreDequeue if
it has one, otherwise allow the dequeue. -/
def preDequeueHook (w : WorkerEnv) : Bool × Option Err × List Event :=
  if w.hasPreDequeue then (w.preDequeueable, w.preDequeueErr, [Event.preDequeueCall])
  else (true, none, [])

/-- Result of one `dequeueAndHandle` call: the named returns, the events the
calling goroutine emits, and the spawned handler activity's events (if any). -/
structure IterResult where
  dequeued : Bool
  err : Option Err
  sync : List Event
  activity : Option (List Event)
deriving DecidableEq, Repr

/-- Method `dequeueAndHandle` (worker.go:223-297).  The initial select acquires a
slot or returns `ctx.Err()`; the defer at worker.go:231-239 releases the slot
on every return path where the named return `dequeued` is false (it is
installed only after acquisition).  On the duplicate-registration path the
`return false, ErrJobAlreadyExists` statement resets `dequeued` to false, so
that defer releases the slot there too. -/
def dequeueAndHandle (w : WorkerEnv) : IterResult :=
  if w.semAcquired = false then
    { dequeued := false, err := w.rootCtx.err, sync := [], activity := none }
  else
    let (dequeueable, pdErr, pdEvs) := preDequeueHook w
    match pdErr with
    | some e =>
      { dequeued := false
        err := some (Err.wrap "Handler.PreDequeueHook" e)
        sync := Event.semAcquire :: pdEvs ++ [Event.semRelease]
        activity := none }
    | none =>
      if dequeueable = false then
        { dequeued := false
          err := none
          sync := Event.semAcquire :: pdEvs ++ [Event.semRelease]
          activity := none }
      else
        match w.dequeueErr with
        | some e =>
          { dequeued := false
            err := some (Err.wrap "store.Dequeue" e)
            sync := Event.semAcquire :: pdEvs ++ [Event.dequeueCall, Event.semRelease]
            activity := none }
        | none =>
          if w.dequeuedRes = false then
            { dequeued := false
              err := none
              sync := Event.semAcquire :: pdEvs ++ [Event.dequeueCall, Event.semRelease]
              activity := none }
          else if w.addOk = false then
            { dequeued := false
              err := some errJobAlreadyExists
              sync := Event.semAcquire :: pdEvs
                ++ [Event.dequeueCall, Event.registryAdd w.recordId false, Event.semRelease]
              activity := none }
          else
            { dequeued := true
              err := none
              sync := Event.semAcquire :: pdEvs
                ++ [Event.dequeueCall, Event.registryAdd w.recordId true, Event.metricsInc]
                ++ (if w.hasHooks then [Event.preHandle w.handleCtx w.recordId] else [])
                ++ [Event.wgAdd]
              activity := some (handlerActivity w) }

/-- All events of one iteration, the spawned activity's events appended after
the synchronous ones (adequate for counting properties). -/
def iterEvents (w : WorkerEnv) : List Event :=
  (dequeueAndHandle w).sync ++ ((dequeueAndHandle w).activity.getD [])

/-
Semaphore accounting.  `handlerSemaphore` is a channel of capacity
`NumHandlers`, filled with `NumHandlers` tokens at construction
(worker.go:93-96).  The main loop receives a token before dequeueing; a
non-handoff return path sends it back via the defer; a handoff transfers the
obligation to the handler activity, which sends the token back when it
finishes (worker.go:287).
-/

/-- Semaphore-relevant actions. -/
inductive SemLabel where
  | acquire
  | releaseMain
  | handoff
  | finishActivity
deriving DecidableEq, Repr

/-- Semaphore accounting state: tokens in the channel, slots held by the main
loop between acquisition and release/handoff, and handler activities running
(holding a slot). -/
structure SemState where
  free : Nat
  mainHeld : Nat
  running : Nat
deriving DecidableEq, Repr

/-- One semaphore-relevant action.  Channel receive (`acquire`) is only
enabled when a token is present; the other actions are only enabled for a
party that actually holds a slot. -/
def semStep : SemLabel → SemState → Option SemState
  | .acquire, s => if s.free = 0 then none else some ⟨s.free - 1, s.mainHeld + 1, s.running⟩
  | .releaseMain, s => if s.mainHeld = 0 then none else some ⟨s.free + 1, s.mainHeld - 1, s.running⟩
  | .handoff, s => if s.mainHeld = 0 then none else some ⟨s.free, s.mainHeld - 1, s.running + 1⟩
  | .finishActivity, s => if s.running = 0 then none else some ⟨s.free + 1, s.mainHeld, s.running - 1⟩

/-- Run a sequence of semaphore actions. -/
def semRun : List SemLabel → SemState → Option SemState
  | [], s => some s
  | l :: ls, s =>
    match semStep l s with
    | none => none
    | some s' => semRun ls s'

/-- The state after construction with `NumHandlers = n` (worker.go:93-96). -/
def semInit (n : Nat) : SemState := ⟨n, 0, 0⟩

/-- The semaphore actions one `dequeueAndHandle` call performs synchronously:
its acquisition and release events, plus the handoff when it spawns a handler
activity (the activity's own release is a later `finishActivity`). -/
def iterLabels (w : WorkerEnv) : List SemLabel :=
  ((dequeueAndHandle w).sync.filterMap fun e =>
    match e with
    | .semAcquire => some SemLabel.acquire
    | .semRelease => some SemLabel.releaseMain
    | _ => none)
  ++ (match (dequeueAndHandle w).activity with
      | none => []
      | some _ => [SemLabel.handoff])

/-
Main loop (`Start`, worker.go:156-199).  One loop iteration is observed as an
`IterStep`: the `dequeueAndHandle` results, the value of `w.ctx.Err()` at the
error check, and which arm of the post-iteration select fired.
-/

/-- Which arm of the select at worker.go:187-194 fired. -/
inductive SelOutcome where
  | delayElapsed
  | ctxDone
  | shutdownTimer
deriving DecidableEq, Repr

/-- One observed loop iteration. -/
structure IterStep where
  ok : Bool
  err : Option Err
  ctxErrAfter : Option Err
  sel : SelOutcome
deriving DecidableEq, Repr

/-- The loop's reaction to `dequeueAndHandle`'s error (worker.go:164-171):
break silently when the root context is canceled and the error matches its
error, otherwise log and carry on with the iteration. -/
inductive ErrReaction where
  | noErr
  | breakSilent
  | logContinue
deriving DecidableEq, Repr

def loopErrorReaction (err ctxErr : Option Err) : ErrReaction :=
  match err with
  | none => ErrReaction.noErr
  | some _ =>
    if ctxErr.isSome && errorsIs err ctxErr then ErrReaction.breakSilent
    else ErrReaction.logContinue

/-- How the main loop ended: `exited reason numDequeues` after a `break loop`
(reason is the empty string for the silent breaks), or `running` when the
supplied iteration script ended with the loop still going. -/
inductive LoopExit where
  | exited (reason : String) (numDequeues : Int)
  | running (numDequeues : Int)
deriving DecidableEq, Repr

/-- The `loop` of `Start` (worker.go:156-195) over a script of observed
iterations.  Each pass first checks the NumTotalJobs cap, then the error
reaction, then counts successful dequeues and waits on the select. -/
def runLoop (numTotalJobs : Int) : Int → List IterStep → LoopExit
  | numDequeues, steps =>
    if numTotalJobs ≠ 0 ∧ numDequeues ≥ numTotalJobs then
      LoopExit.exited "NumTotalJobs dequeued" numDequeues
    else
      match steps with
      | [] => LoopExit.running numDequeues
      | s :: rest =>
        match loopErrorReaction s.err s.ctxErrAfter with
        | ErrReaction.breakSilent => LoopExit.exited "" numDequeues
        | _ =>
          let nd := if s.ok then numDequeues + 1 else numDequeues
          match s.sel with
          | SelOutcome.delayElapsed => runLoop numTotalJobs nd rest
          | SelOutcome.ctxDone => LoopExit.exited "" nd
          | SelOutcome.shutdownTimer => LoopExit.exited "MaxActiveTime elapsed" nd

/-- The `IterStep` a `dequeueAndHandle` call with observations `w` produces,
given the root context error at the check and the select outcome. -/
def stepOf (w : WorkerEnv) (ctxErrAfter : Option Err) (sel : SelOutcome) : IterStep :=
  ⟨(dequeueAndHandle w).dequeued, (dequeueAndHandle w).err, ctxErrAfter, sel⟩

/-
Heartbeat loop (worker.go:120-145).  One tick: snapshot the running set,
call `store.Heartbeat(w.ctx, ids)`, log on error, then remove every id the
returned `knownIDs` does not contain.  The error branch only logs; the
removal loop runs regardless of `hbErr`.
-/

/-- The ids one heartbeat tick removes from the running ID set, given the
snapshot `ids` and the store's reply `(knownIDs, hbErr)`. -/
def heartbeatTickRemovals (ids knownIDs : List Nat) (_hbErr : Option Err) : List Nat :=
  ids.filter fun id => !(knownIDs.contains id)

/-
Stop / Wait (worker.go:204-212).  `Stop` cancels the root context and waits;
`Wait` receives from the `finished` channel, which `Start` closes on return.
Canceling an already-canceled context is a no-op, and receiving from a closed
channel never blocks.
-/

/-- Lifecycle state: whether the root context has been canceled and whether
`close(w.finished)` has run. -/
structure LifeState where
  canceled : Bool
  finishedClosed : Bool
deriving DecidableEq, Repr

/-- The effect of `w.cancel()`: cancellation is a latch. -/
def cancelRoot (s : LifeState) : LifeState := { s with canceled := true }

/-- Whether `Wait` (a receive from `w.finished`) blocks: it returns
immediately exactly when the channel has been closed. -/
def waitBlocks (s : LifeState) : Bool := !s.finishedClosed

/-- Method `Stop` (worker.go:204-207): cancel the root context, then `Wait` (which
does not change the state). -/
def stop (s : LifeState) : LifeState := cancelRoot s

/-- The `sync.WaitGroup` balance over a trace: `Add(1)` events minus `Done()`
events.  `wg.Wait()` at worker.go:198 returns only when this is zero. -/
def wgBalance (evs : List Event) : Int :=
  (evs.countP isWgAddEv : Int) - (evs.countP isWgDoneEv : Int)

/-
Example environments used by witnesses and counterexamples.
-/

/-- A baseline environment: slot acquired, no pre-dequeue hook, a record with
id 7 dequeued, registration succeeds, hooks present, handler succeeds. -/
def envBase : WorkerEnv :=
  { rootCtx := { err := none }
    handleCtx := { err := none }
    hasPreDequeue := false
    preDequeueable := true
    preDequeueErr := none
    dequeueErr := none
    dequeuedRes := true
    recordId := 7
    addOk := true
    hasHooks := true
    handleOutcome := none
    registryHasAtCheck := true
    markCompleteRes := { marked := true, err := none }
    markErroredRes := { marked := true, err := none }
    markFailedRes := { marked := true, err := none }
    semAcquired := true }

/-
Helper lemmas shared by the claims below.
-/

/-- The events of `handle` are always the Handle call followed by exactly one
mark call, which is made with the root context. -/
theorem handle_events_eq (w : WorkerEnv) (ctx : Ctx) (id : Nat) :
    (handle w ctx id).1
        = [Event.handleCall ctx id, Event.markFailed w.rootCtx id (goErrMsg w.handleOutcome)]
      ∨ (handle w ctx id).1
        = [Event.handleCall ctx id, Event.markErrored w.rootCtx id (goErrMsg w.handleOutcome)]
      ∨ (handle w ctx id).1
        = [Event.handleCall ctx id, Event.markComplete w.rootCtx id] := by
  simp only [handle]
  split
  · exact Or.inl rfl
  · split
    · exact Or.inr (Or.inl rfl)
    · exact Or.inr (Or.inr rfl)

/-- C1, counterexample.  In the concrete run `envBase` (hooks present, record
7, handler succeeds) the handler activity's trace is
`[handleCall, markComplete, postHandle, metricsDec, semRelease, wgDone,
registryRemove]`: the claimed chain "mark before PostHandle before registry
removal before semaphore release" fails, because the removal — installed by
`defer` inside the cleanup closure — runs after the semaphore release. -/
theorem c1_cleanup_order_counterexample :
    ¬ ((handlerActivity envBase).findIdx isMark
          < (handlerActivity envBase).findIdx isPostHandleEv
        ∧ (handlerActivity envBase).findIdx isPostHandleEv
          < (handlerActivity envBase).findIdx isRemoveEv
        ∧ (handlerActivity envBase).findIdx isRemoveEv
          < (handlerActivity envBase).findIdx isSemReleaseEv) := by
  decide

/-- C1, amended.  In every handler activity with hooks, each of the four
cleanup actions occurs exactly once, the terminal mark call happens before
PostHandle, PostHandle happens before the registry removal, and the semaphore
release happens before the registry removal (the removal, being deferred
inside the cleanup closure, is the last action). -/
theorem c1_cleanup_order (w : WorkerEnv) (hHooks : w.hasHooks = true) :
    (handlerActivity w).countP isMark = 1
      ∧ (handlerActivity w).countP isPostHandleEv = 1
      ∧ (handlerActivity w).countP isRemoveEv = 1
      ∧ (handlerActivity w).countP isSemReleaseEv = 1
      ∧ (handlerActivity w).findIdx isMark < (handlerActivity w).findIdx isPostHandleEv
      ∧ (handlerActivity w).findIdx isPostHandleEv < (handlerActivity w).findIdx isRemoveEv
      ∧ (handlerActivity w).findIdx isSemReleaseEv < (handlerActivity w).findIdx isRemoveEv := by
  rcases handle_events_eq w w.handleCtx w.recordId with h | h | h <;>
    simp [handlerActivity, h, hHooks, List.countP_cons, List.findIdx_cons,
      isMark, isPostHandleEv, isRemoveEv, isSemReleaseEv]

/-- C1, witness for the amended theorem at the concrete run `envBase`. -/
theorem c1_cleanup_order_witness :
    (handlerActivity envBase).countP isMark = 1
      ∧ (handlerActivity envBase).countP isPostHandleEv = 1
      ∧ (handlerActivity envBase).countP isRemoveEv = 1
      ∧ (handlerActivity envBase).countP isSemReleaseEv = 1
      ∧ (handlerActivity envBase).findIdx isMark
        < (handlerActivity envBase).findIdx isPostHandleEv
      ∧ (handlerActivity envBase).findIdx isPostHandleEv
        < (handlerActivity envBase).findIdx isRemoveEv
      ∧ (handlerActivity envBase).findIdx isSemReleaseEv
        < (handlerActivity envBase).findIdx isRemoveEv :=
  c1_cleanup_order envBase (by decide)

/-- C2, code bug.  One heartbeat tick with running set `{5}` on which
`store.Heartbeat` fails (returning `(nil, err)`): the error branch only logs
and does not skip the reconciliation loop, so id 5 is removed from the
running ID set on that very tick — the claim (and spec section 4.4) says no
id is removed when the heartbeat errors. -/
theorem c2_heartbeat_error_removes_ids :
    heartbeatTickRemovals [5] [] (some (Err.atom 2 "store failure" false)) = [5]
      ∧ heartbeatTickRemovals [5] [5] none = [] := by
  decide

/-- The baseline run, except that `runningIDSet.Add` reports a duplicate id. -/
def envDup : WorkerEnv := { envBase with addOk := false }

/-- C3, counterexample.  A successful dequeue whose registration fails with
`ErrJobAlreadyExists` (`envDup`): the iteration emits no mark call at all and
removes nothing, refuting "exactly one of MarkComplete/MarkErrored/MarkFailed
is attempted and the registry entry removed, including the path where Add
fails with JobAlreadyExists". -/
theorem c3_cleanup_completeness_counterexample :
    ¬ ((iterEvents envDup).countP isMark = 1
        ∧ (iterEvents envDup).countP isRemoveEv = 1) := by
  decide

/-- C3, amended.  For every successful `Dequeue`: when registry `Add`
succeeds, exactly one terminal mark call is attempted and the registry entry
is removed exactly once; when `Add` fails with `ErrJobAlreadyExists`, no mark
call is attempted, nothing is removed, the error surfaces from
`dequeueAndHandle`, and the semaphore slot is released before the iteration
ends. -/
theorem c3_cleanup_completeness (w : WorkerEnv)
    (hSem : w.semAcquired = true)
    (hPd1 : w.hasPreDequeue = true → w.preDequeueable = true)
    (hPd2 : w.hasPreDequeue = true → w.preDequeueErr = none)
    (hDe : w.dequeueErr = none) (hDq : w.dequeuedRes = true) :
    (w.addOk = true →
        (iterEvents w).countP isMark = 1 ∧ (iterEvents w).countP isRemoveEv = 1)
      ∧ (w.addOk = false →
        (iterEvents w).countP isMark = 0
          ∧ (iterEvents w).countP isRemoveEv = 0
          ∧ (dequeueAndHandle w).err = some errJobAlreadyExists
          ∧ (dequeueAndHandle w).sync.countP isSemReleaseEv = 1) := by
  constructor
  · intro hA
    rcases handle_events_eq w w.handleCtx w.recordId with h | h | h <;>
      by_cases hpd : w.hasPreDequeue = true <;>
      by_cases hH : w.hasHooks = true <;>
        simp [iterEvents, dequeueAndHandle, preDequeueHook, handlerActivity, h,
          hSem, hPd1, hPd2, hpd, hH, hDe, hDq, hA, List.countP_cons,
          isMark, isRemoveEv]
  · intro hA
    by_cases hpd : w.hasPreDequeue = true <;>
      simp [iterEvents, dequeueAndHandle, preDequeueHook, hSem, hPd1, hPd2,
        hpd, hDe, hDq, hA, List.countP_cons, isMark, isRemoveEv, isSemReleaseEv]

/-- C3, witness for the amended theorem at the concrete runs `envBase`
(registration succeeds) and `envDup` (duplicate registration). -/
theorem c3_cleanup_completeness_witness :
    ((iterEvents envBase).countP isMark = 1
        ∧ (iterEvents envBase).countP isRemoveEv = 1)
      ∧ ((iterEvents envDup).countP isMark = 0
        ∧ (iterEvents envDup).countP isRemoveEv = 0
        ∧ (dequeueAndHandle envDup).err = some errJobAlreadyExists
        ∧ (dequeueAndHandle envDup).sync.countP isSemReleaseEv = 1) :=
  ⟨(c3_cleanup_completeness envBase rfl (by decide) (by decide) rfl rfl).1 rfl,
    (c3_cleanup_completeness envDup rfl (by decide) (by decide) rfl rfl).2 rfl⟩

/-- C4.  The handler outcome maps to exactly one terminal store call: a nil
error yields MarkComplete; an error flagged non-retryable yields MarkFailed
with the error's message; a non-nil error matching the per-record context's
error while the id is still in the running ID set (canceled via `Cancel`)
yields MarkFailed; any other non-nil error yields MarkErrored with the
error's message.  (`errcode.IsNonRetryable` is modelled from the spec as the
"flagged non-retryable" test.) -/
theorem c4_outcome_classification (w : WorkerEnv) (ctx : Ctx) (id : Nat) :
    (w.handleOutcome = none →
        (handle w ctx id).1.find? isMark = some (Event.markComplete w.rootCtx id))
      ∧ (∀ e, w.handleOutcome = some e → e.flagNonRetryable = true →
        (handle w ctx id).1.find? isMark
          = some (Event.markFailed w.rootCtx id e.errorMsg))
      ∧ (∀ e, w.handleOutcome = some e → errorsIs (some e) ctx.err = true →
          w.registryHasAtCheck = true →
        (handle w ctx id).1.find? isMark
          = some (Event.markFailed w.rootCtx id e.errorMsg))
      ∧ (∀ e, w.handleOutcome = some e → e.flagNonRetryable = false →
          ¬(errorsIs (some e) ctx.err = true ∧ w.registryHasAtCheck = true) →
        (handle w ctx id).1.find? isMark
          = some (Event.markErrored w.rootCtx id e.errorMsg)) := by
  refine ⟨fun hN => ?_, fun e hE hF => ?_, fun e hE hIs hHas => ?_, fun e hE hF hNot => ?_⟩
  · simp [handle, hN, isNonRetryable, isJobCanceled, List.find?, isMark]
  · simp [handle, hE, isNonRetryable, hF, goErrMsg, List.find?, isMark]
  · simp [handle, hE, isNonRetryable, isJobCanceled, hIs, hHas, goErrMsg,
      List.find?, isMark]
  · have hjc : isJobCanceled w (some e) ctx.err = false := by
      rcases Bool.eq_false_or_eq_true (errorsIs (some e) ctx.err) with h | h
      · rcases Bool.eq_false_or_eq_true w.registryHasAtCheck with h2 | h2
        · exact absurd ⟨h, h2⟩ hNot
        · simp [isJobCanceled, h2]
      · simp [isJobCanceled, h]
    simp [handle, hE, isNonRetryable, hF, hjc, goErrMsg, List.find?, isMark]

/-- An error flagged non-retryable, used by witnesses. -/
def nonRetryableErr : Err := Err.atom 3 "permanent failure" true

/-- A plain retryable handler error, used by witnesses. -/
def transientErr : Err := Err.atom 4 "boom" false

/-- C4, witness: the four classification branches at concrete runs — handler
success, a non-retryable error, a cancellation (error equals the handler
context's error with the id still registered), and a plain transient error. -/
theorem c4_outcome_classification_witness :
    (handle envBase envBase.handleCtx 7).1.find? isMark
        = some (Event.markComplete envBase.rootCtx 7)
      ∧ (handle { envBase with handleOutcome := some nonRetryableErr }
            envBase.handleCtx 7).1.find? isMark
        = some (Event.markFailed envBase.rootCtx 7 nonRetryableErr.errorMsg)
      ∧ (handle { envBase with handleOutcome := some canceledErr }
            { err := some canceledErr } 7).1.find? isMark
        = some (Event.markFailed envBase.rootCtx 7 canceledErr.errorMsg)
      ∧ (handle { envBase with handleOutcome := some transientErr }
            envBase.handleCtx 7).1.find? isMark
        = some (Event.markErrored envBase.rootCtx 7 transientErr.errorMsg) :=
  ⟨(c4_outcome_classification envBase envBase.handleCtx 7).1 rfl,
    (c4_outcome_classification { envBase with handleOutcome := some nonRetryableErr }
        envBase.handleCtx 7).2.1 nonRetryableErr rfl rfl,
    (c4_outcome_classification { envBase with handleOutcome := some canceledErr }
        { err := some canceledErr } 7).2.2.1 canceledErr rfl (by decide) rfl,
    (c4_outcome_classification { envBase with handleOutcome := some transientErr }
        envBase.handleCtx 7).2.2.2 transientErr rfl rfl (by decide)⟩

/-- Each semaphore action preserves the total number of slots (tokens in the
channel plus slots held by the main loop plus slots held by activities). -/
theorem semStep_sum (l : SemLabel) (s s' : SemState)
    (h : semStep l s = some s') :
    s'.free + s'.mainHeld + s'.running = s.free + s.mainHeld + s.running := by
  cases s with
  | mk f m r =>
    cases l <;> simp only [semStep] at h <;> split at h <;> cases h <;>
      simp <;> omega

/-- Runs of semaphore actions preserve the total number of slots. -/
theorem semRun_sum (ls : List SemLabel) :
    ∀ s s' : SemState, semRun ls s = some s' →
      s'.free + s'.mainHeld + s'.running = s.free + s.mainHeld + s.running := by
  induction ls with
  | nil =>
    intro s s' h
    simp [semRun] at h
    rw [h]
  | cons l ls ih =>
    intro s s' h
    rw [semRun] at h
    cases hstep : semStep l s with
    | none => rw [hstep] at h; exact absurd h (by simp)
    | some s1 =>
      rw [hstep] at h
      rw [ih s1 s' h]
      exact semStep_sum l s s1 hstep

/-- A spawned handler activity's trace is always `handlerActivity`. -/
theorem activity_eq (w : WorkerEnv) (a : List Event)
    (hact : (dequeueAndHandle w).activity = some a) : a = handlerActivity w := by
  rcases Bool.eq_false_or_eq_true w.semAcquired with hSem | hSem <;>
  rcases Bool.eq_false_or_eq_true w.hasPreDequeue with hpd | hpd <;>
  rcases Bool.eq_false_or_eq_true w.preDequeueable with hpda | hpda <;>
  rcases Bool.eq_false_or_eq_true w.dequeuedRes with hdq | hdq <;>
  rcases Bool.eq_false_or_eq_true w.addOk with hao | hao <;>
  rcases hpe : w.preDequeueErr with _ | e1 <;>
  rcases hde : w.dequeueErr with _ | e2 <;>
    simp_all [dequeueAndHandle, preDequeueHook]

/-- C5.  From the initial semaphore state with `NumHandlers = n`, every
reachable state has at most `n` handler activities running; an iteration that
never acquired a slot performs no semaphore action; an iteration that
acquired a slot and did not hand off releases it before the iteration ends;
and an iteration that handed off transfers its slot to the activity, whose
trace releases it exactly once. -/
theorem c5_no_oversubscription (w : WorkerEnv) (n : Nat) (ls : List SemLabel)
    (s' : SemState) :
    (semRun ls (semInit n) = some s' → s'.running ≤ n)
      ∧ (w.semAcquired = false → iterLabels w = [])
      ∧ (w.semAcquired = true → (dequeueAndHandle w).activity = none →
          iterLabels w = [SemLabel.acquire, SemLabel.releaseMain])
      ∧ (∀ a, (dequeueAndHandle w).activity = some a →
          iterLabels w = [SemLabel.acquire, SemLabel.handoff]
            ∧ a.countP isSemReleaseEv = 1) := by
  refine ⟨fun h => ?_, fun hSem => ?_, fun hSem hact => ?_, fun a hact => ?_⟩
  · have hsum := semRun_sum ls (semInit n) s' h
    simp [semInit] at hsum
    omega
  · simp [iterLabels, dequeueAndHandle, hSem]
  · rcases Bool.eq_false_or_eq_true w.hasPreDequeue with hpd | hpd <;>
    rcases Bool.eq_false_or_eq_true w.preDequeueable with hpda | hpda <;>
    rcases Bool.eq_false_or_eq_true w.dequeuedRes with hdq | hdq <;>
    rcases Bool.eq_false_or_eq_true w.addOk with hao | hao <;>
    rcases hpe : w.preDequeueErr with _ | e1 <;>
    rcases hde : w.dequeueErr with _ | e2 <;>
      simp_all [iterLabels, dequeueAndHandle, preDequeueHook]
  · have ha := activity_eq w a hact
    subst ha
    refine ⟨?_, ?_⟩
    · rcases Bool.eq_false_or_eq_true w.semAcquired with hSem | hSem <;>
      rcases Bool.eq_false_or_eq_true w.hasPreDequeue with hpd | hpd <;>
      rcases Bool.eq_false_or_eq_true w.preDequeueable with hpda | hpda <;>
      rcases Bool.eq_false_or_eq_true w.dequeuedRes with hdq | hdq <;>
      rcases Bool.eq_false_or_eq_true w.addOk with hao | hao <;>
      rcases hpe : w.preDequeueErr with _ | e1 <;>
      rcases hde : w.dequeueErr with _ | e2 <;>
        simp_all [iterLabels, dequeueAndHandle, preDequeueHook]
    · rcases handle_events_eq w w.handleCtx w.recordId with h | h | h <;>
      rcases Bool.eq_false_or_eq_true w.hasHooks with hH | hH <;>
        simp [handlerActivity, h, hH, List.countP_cons, isSemReleaseEv]

/-- C5, witness: a run of two iterations' worth of semaphore actions with
`NumHandlers = 2` reaches a state with one running activity (at most 2), and
the concrete runs `envBase` (handoff) and a declined pre-dequeue release or
transfer their slot as stated. -/
theorem c5_no_oversubscription_witness :
    ({ free := 1, mainHeld := 0, running := 1 } : SemState).running ≤ 2
      ∧ (iterLabels { envBase with semAcquired := false } = [])
      ∧ (iterLabels { envBase with dequeuedRes := false }
          = [SemLabel.acquire, SemLabel.releaseMain])
      ∧ (iterLabels envBase = [SemLabel.acquire, SemLabel.handoff]
          ∧ (handlerActivity envBase).countP isSemReleaseEv = 1) := by
  refine ⟨?_, ?_, ?_, ?_⟩
  · exact (c5_no_oversubscription envBase 2 [SemLabel.acquire, SemLabel.handoff]
      { free := 1, mainHeld := 0, running := 1 }).1 (by decide)
  · exact (c5_no_oversubscription { envBase with semAcquired := false } 2 [] (semInit 2)).2.1 rfl
  · exact (c5_no_oversubscription { envBase with dequeuedRes := false } 2 [] (semInit 2)).2.2.1
      rfl (by rfl)
  · exact (c5_no_oversubscription envBase 2 [] (semInit 2)).2.2.2
      (handlerActivity envBase) (by rfl)

/-- The synchronous part of an iteration performs no terminal mark call. -/
theorem sync_marks_zero (w : WorkerEnv) :
    (dequeueAndHandle w).sync.countP isMark = 0 := by
  rcases Bool.eq_false_or_eq_true w.semAcquired with hSem | hSem <;>
  rcases Bool.eq_false_or_eq_true w.hasPreDequeue with hpd | hpd <;>
  rcases Bool.eq_false_or_eq_true w.hasHooks with hH | hH <;>
  rcases Bool.eq_false_or_eq_true w.preDequeueable with hpda | hpda <;>
  rcases Bool.eq_false_or_eq_true w.dequeuedRes with hdq | hdq <;>
  rcases Bool.eq_false_or_eq_true w.addOk with hao | hao <;>
  rcases hpe : w.preDequeueErr with _ | e1 <;>
  rcases hde : w.dequeueErr with _ | e2 <;>
    simp [dequeueAndHandle, preDequeueHook, hSem, hpd, hH, hpda, hdq, hao,
      hpe, hde, List.countP_cons, isMark]

/-- Every mark event of the handler activity carries the root context, and
there is exactly one of them. -/
theorem activity_marks_root (w : WorkerEnv) :
    ((handlerActivity w).all fun e => !(isMark e) || (markCtxOf e == some w.rootCtx)) = true
      ∧ (handlerActivity w).countP isMark = 1 := by
  rcases handle_events_eq w w.handleCtx w.recordId with h | h | h <;>
  rcases Bool.eq_false_or_eq_true w.hasHooks with hH | hH <;>
    simp [handlerActivity, h, hH, List.countP_cons, isMark, markCtxOf]

/-- C6.  Every terminal mark call in an iteration's full trace is made with
the worker root context (`w.ctx`), never the per-record handler context; and
the handler activity always attempts exactly one terminal mark call, whatever
the handler context's error is — so canceling the handler context does not by
itself prevent the terminal store update. -/
theorem c6_marks_use_root_ctx (w : WorkerEnv) :
    ((iterEvents w).all fun e => !(isMark e) || (markCtxOf e == some w.rootCtx)) = true
      ∧ (handlerActivity w).countP isMark = 1 := by
  refine ⟨?_, (activity_marks_root w).2⟩
  rw [List.all_eq_true]
  intro e he
  rcases List.mem_append.1 (by simpa [iterEvents] using he) with hs | ha
  · have hz := List.countP_eq_zero.mp (sync_marks_zero w) e hs
    simp [Bool.not_eq_true] at hz
    simp [hz]
  · rcases hA : (dequeueAndHandle w).activity with _ | a
    · rw [hA] at ha
      simp at ha
    · rw [hA] at ha
      simp only [Option.getD_some] at ha
      have hEq := activity_eq w a hA
      subst hEq
      exact (List.all_eq_true.mp (activity_marks_root w).1) e ha

/-- Go `errors.Is` is reflexive on non-nil errors. -/
theorem errorsIsE_refl (e : Err) : errorsIsE e e = true := by
  cases e <;> simp [errorsIsE]

/-- C7.  When the slot is acquired, the pre-dequeue hook passes and
`store.Dequeue` returns error `de`, `dequeueAndHandle` surfaces
`errors.Wrap(de, "store.Dequeue")` with `dequeued = false`; the main loop's
error check then breaks silently (no log) exactly when the root context is
canceled and `de` matches its error, logs and carries the iteration on when
the root context error is nil or does not match, and on the matching case the
loop run exits silently. -/
theorem c7_dequeue_error_reaction (w : WorkerEnv) (de ce : Err)
    (hSem : w.semAcquired = true)
    (hPd1 : w.hasPreDequeue = true → w.preDequeueable = true)
    (hPd2 : w.hasPreDequeue = true → w.preDequeueErr = none)
    (hDe : w.dequeueErr = some de) :
    (dequeueAndHandle w).err = some (Err.wrap "store.Dequeue" de)
      ∧ (dequeueAndHandle w).dequeued = false
      ∧ (errorsIsE de ce = true →
          loopErrorReaction (dequeueAndHandle w).err (some ce) = ErrReaction.breakSilent)
      ∧ loopErrorReaction (dequeueAndHandle w).err none = ErrReaction.logContinue
      ∧ (errorsIsE de ce = false → (Err.wrap "store.Dequeue" de == ce) = false →
          loopErrorReaction (dequeueAndHandle w).err (some ce) = ErrReaction.logContinue)
      ∧ (∀ (t nd : Int) (rest : List IterStep) (sel : SelOutcome),
          ¬(t ≠ 0 ∧ nd ≥ t) → errorsIsE de ce = true →
          runLoop t nd (stepOf w (some ce) sel :: rest) = LoopExit.exited "" nd) := by
  have herr : (dequeueAndHandle w).err = some (Err.wrap "store.Dequeue" de) := by
    rcases Bool.eq_false_or_eq_true w.hasPreDequeue with hpd | hpd <;>
      simp [dequeueAndHandle, preDequeueHook, hSem, hpd, hPd1, hPd2, hDe]
  have hdeq : (dequeueAndHandle w).dequeued = false := by
    rcases Bool.eq_false_or_eq_true w.hasPreDequeue with hpd | hpd <;>
      simp [dequeueAndHandle, preDequeueHook, hSem, hpd, hPd1, hPd2, hDe]
  refine ⟨herr, hdeq, fun hIs => ?_, ?_, fun hIs hNe => ?_, fun t nd rest sel hcap hIs => ?_⟩
  · have hwrap : errorsIsE (Err.wrap "store.Dequeue" de) ce = true := by
      rw [errorsIsE]
      simp [hIs]
    simp [loopErrorReaction, herr, errorsIs, hwrap]
  · simp [loopErrorReaction, herr]
  · have hwrap : errorsIsE (Err.wrap "store.Dequeue" de) ce = false := by
      rw [errorsIsE]
      simp [hIs, hNe]
    simp [loopErrorReaction, herr, errorsIs, hwrap]
  · have hwrap : errorsIsE (Err.wrap "store.Dequeue" de) ce = true := by
      rw [errorsIsE]
      simp [hIs]
    rw [runLoop.eq_def]
    simp [hcap, stepOf, herr, loopErrorReaction, errorsIs, hwrap]

/-- An environment whose dequeue fails with a transient store error. -/
def envDeqErr : WorkerEnv :=
  { envBase with dequeueErr := some transientErr, dequeuedRes := false }

/-- C7, witness at the concrete run `envDeqErr`: with a root context whose
error matches the dequeue error the loop breaks silently, with a nil or
non-matching root context error the failure is logged and the iteration goes
on. -/
theorem c7_dequeue_error_reaction_witness :
    (dequeueAndHandle envDeqErr).err
        = some (Err.wrap "store.Dequeue" transientErr)
      ∧ (dequeueAndHandle envDeqErr).dequeued = false
      ∧ loopErrorReaction (dequeueAndHandle envDeqErr).err (some transientErr)
          = ErrReaction.breakSilent
      ∧ loopErrorReaction (dequeueAndHandle envDeqErr).err none
          = ErrReaction.logContinue
      ∧ loopErrorReaction (dequeueAndHandle envDeqErr).err (some canceledErr)
          = ErrReaction.logContinue
      ∧ runLoop 5 0 [stepOf envDeqErr (some transientErr) SelOutcome.delayElapsed]
          = LoopExit.exited "" 0 :=
  ⟨(c7_dequeue_error_reaction envDeqErr transientErr transientErr rfl
      (by decide) (by decide) rfl).1,
    (c7_dequeue_error_reaction envDeqErr transientErr transientErr rfl
      (by decide) (by decide) rfl).2.1,
    (c7_dequeue_error_reaction envDeqErr transientErr transientErr rfl
      (by decide) (by decide) rfl).2.2.1 (by decide),
    (c7_dequeue_error_reaction envDeqErr transientErr transientErr rfl
      (by decide) (by decide) rfl).2.2.2.1,
    (c7_dequeue_error_reaction envDeqErr transientErr canceledErr rfl
      (by decide) (by decide) rfl).2.2.2.2.1 (by decide) (by decide),
    (c7_dequeue_error_reaction envDeqErr transientErr transientErr rfl
      (by decide) (by decide) rfl).2.2.2.2.2 5 0 [] SelOutcome.delayElapsed
      (by decide) (by decide)⟩

/-- When the NumTotalJobs cap is reached the loop exits before consuming any
iteration, whatever the script holds. -/
theorem runLoop_cap (t nd : Int) (steps : List IterStep)
    (h1 : t ≠ 0) (h2 : nd ≥ t) :
    runLoop t nd steps = LoopExit.exited "NumTotalJobs dequeued" nd := by
  rw [runLoop.eq_def]
  simp [h1, h2]

/-- A successful, error-free iteration followed by an elapsed delay advances
the loop with the dequeue counter incremented. -/
theorem runLoop_cons_success (t nd : Int) (s : IterStep) (rest : List IterStep)
    (hcap : ¬(t ≠ 0 ∧ nd ≥ t)) (hok : s.ok = true) (herr : s.err = none)
    (hsel : s.sel = SelOutcome.delayElapsed) :
    runLoop t nd (s :: rest) = runLoop t (nd + 1) rest := by
  rw [runLoop.eq_def]
  simp [hcap, herr, loopErrorReaction, hok, hsel]

/-- With a positive cap `t` and a script of at least `t` successful
error-free iterations, the loop exits with reason "NumTotalJobs dequeued"
having counted exactly `t` dequeues. -/
theorem runLoop_cap_aux (t : Int) (steps : List IterStep) :
    ∀ nd : Int, 0 < t → 0 ≤ nd → nd < t →
      (∀ s ∈ steps, s.ok = true ∧ s.err = none ∧ s.sel = SelOutcome.delayElapsed) →
      t ≤ nd + steps.length →
      runLoop t nd steps = LoopExit.exited "NumTotalJobs dequeued" t := by
  induction steps with
  | nil =>
    intro nd h0 hnd0 hndt _ hlen
    simp only [List.length_nil] at hlen
    exact absurd hlen (by omega)
  | cons s rest ih =>
    intro nd h0 hnd0 hndt hall hlen
    obtain ⟨hok, herr, hsel⟩ := hall s (List.mem_cons_self s rest)
    rw [runLoop_cons_success t nd s rest (by omega) hok herr hsel]
    by_cases hEq : nd + 1 = t
    · rw [hEq]
      exact runLoop_cap t t rest (by omega) (by omega)
    · refine ih (nd + 1) h0 (by omega) (by omega)
        (fun s' hs' => hall s' (List.mem_cons_of_mem s hs')) ?_
      simp only [List.length_cons] at hlen
      omega

/-- When handed off, the synchronous part of the iteration has performed
`wg.Add(1)` once and no `wg.Done()`. -/
theorem sync_wg_handoff (w : WorkerEnv) (a : List Event)
    (hact : (dequeueAndHandle w).activity = some a) :
    (dequeueAndHandle w).sync.countP isWgAddEv = 1
      ∧ (dequeueAndHandle w).sync.countP isWgDoneEv = 0 := by
  rcases Bool.eq_false_or_eq_true w.semAcquired with hSem | hSem <;>
  rcases Bool.eq_false_or_eq_true w.hasPreDequeue with hpd | hpd <;>
  rcases Bool.eq_false_or_eq_true w.hasHooks with hH | hH <;>
  rcases Bool.eq_false_or_eq_true w.preDequeueable with hpda | hpda <;>
  rcases Bool.eq_false_or_eq_true w.dequeuedRes with hdq | hdq <;>
  rcases Bool.eq_false_or_eq_true w.addOk with hao | hao <;>
  rcases hpe : w.preDequeueErr with _ | e1 <;>
  rcases hde : w.dequeueErr with _ | e2 <;>
    simp_all [dequeueAndHandle, preDequeueHook, List.countP_cons,
      isWgAddEv, isWgDoneEv]

/-- The handler activity calls `wg.Done()` exactly once, never `wg.Add`, and
its terminal mark call precedes the `wg.Done()`. -/
theorem activity_wg (w : WorkerEnv) :
    (handlerActivity w).countP isWgDoneEv = 1
      ∧ (handlerActivity w).countP isWgAddEv = 0
      ∧ (handlerActivity w).findIdx isMark < (handlerActivity w).findIdx isWgDoneEv := by
  rcases handle_events_eq w w.handleCtx w.recordId with h | h | h <;>
  rcases Bool.eq_false_or_eq_true w.hasHooks with hH | hH <;>
    simp [handlerActivity, h, hH, List.countP_cons, List.findIdx_cons,
      isWgDoneEv, isWgAddEv, isMark]

/-- C8.  With `NumTotalJobs = t > 0` and a script of successful error-free
dequeues, the loop performs exactly `t` successful dequeues and exits with
reason "NumTotalJobs dequeued"; an unsuccessful error-free iteration leaves
the loop state untouched (attempts are not counted); and a handed-off
iteration leaves the wait-group balance at one until the activity's
`wg.Done()`, which runs only after the record's terminal mark call — so
`Start`'s `wg.Wait()` returns only after the handler completed and reported. -/
theorem c8_numtotaljobs (t : Int) (steps : List IterStep) (s : IterStep)
    (nd : Int) (rest : List IterStep) (w : WorkerEnv) (a : List Event) :
    (0 < t →
        (∀ s' ∈ steps, s'.ok = true ∧ s'.err = none
            ∧ s'.sel = SelOutcome.delayElapsed) →
        t ≤ steps.length →
        runLoop t 0 steps = LoopExit.exited "NumTotalJobs dequeued" t)
      ∧ (s.ok = false → s.err = none → s.sel = SelOutcome.delayElapsed →
        runLoop t nd (s :: rest) = runLoop t nd rest)
      ∧ ((dequeueAndHandle w).activity = some a →
        wgBalance (dequeueAndHandle w).sync = 1
          ∧ wgBalance (iterEvents w) = 0
          ∧ a.countP isWgDoneEv = 1
          ∧ a.findIdx isMark < a.findIdx isWgDoneEv) := by
  refine ⟨fun h0 hall hlen => ?_, fun hok herr hsel => ?_, fun hact => ?_⟩
  · exact runLoop_cap_aux t steps 0 h0 (by omega) (by omega) hall (by omega)
  · by_cases hcap : t ≠ 0 ∧ nd ≥ t
    · rw [runLoop_cap t nd _ hcap.1 hcap.2, runLoop_cap t nd rest hcap.1 hcap.2]
    · rw [runLoop.eq_def]
      simp [hcap, herr, loopErrorReaction, hok, hsel]
  · have hs := sync_wg_handoff w a hact
    have hEq := activity_eq w a hact
    subst hEq
    have hA := activity_wg w
    refine ⟨?_, ?_, hA.1, hA.2.2⟩
    · simp [wgBalance, hs.1, hs.2]
    · simp [wgBalance, iterEvents, hact, List.countP_append, hs.1, hs.2,
        hA.1, hA.2.1]

/-- A successful error-free loop iteration observation. -/
def succStep : IterStep :=
  { ok := true, err := none, ctxErrAfter := none, sel := SelOutcome.delayElapsed }

/-- An empty-dequeue (unsuccessful, error-free) loop iteration observation. -/
def failStep : IterStep :=
  { ok := false, err := none, ctxErrAfter := none, sel := SelOutcome.delayElapsed }

/-- C8, witness: with `NumTotalJobs = 1` one successful dequeue ends the
loop with reason "NumTotalJobs dequeued"; a preceding empty dequeue is not
counted; and the concrete handed-off run `envBase` balances its wait group
only after the mark call. -/
theorem c8_numtotaljobs_witness :
    runLoop 1 0 [succStep] = LoopExit.exited "NumTotalJobs dequeued" 1
      ∧ runLoop 1 0 (failStep :: [succStep]) = runLoop 1 0 [succStep]
      ∧ (wgBalance (dequeueAndHandle envBase).sync = 1
          ∧ wgBalance (iterEvents envBase) = 0
          ∧ (handlerActivity envBase).countP isWgDoneEv = 1
          ∧ (handlerActivity envBase).findIdx isMark
            < (handlerActivity envBase).findIdx isWgDoneEv) :=
  ⟨(c8_numtotaljobs 1 [succStep] failStep 0 [succStep] envBase
      (handlerActivity envBase)).1 (by decide) (by decide) (by decide),
    (c8_numtotaljobs 1 [succStep] failStep 0 [succStep] envBase
      (handlerActivity envBase)).2.1 rfl rfl rfl,
    (c8_numtotaljobs 1 [succStep] failStep 0 [succStep] envBase
      (handlerActivity envBase)).2.2 (by rfl)⟩

/-- C9.  `Stop` is idempotent — the second and every further call leaves the
worker state unchanged — and once the "finished" signal has fired, `Wait`
does not block, whether called directly or from inside `Stop`. -/
theorem c9_stop_idempotent_wait (s : LifeState) :
    stop (stop s) = stop s
      ∧ (s.finishedClosed = true →
          waitBlocks s = false ∧ waitBlocks (stop s) = false) := by
  refine ⟨rfl, fun h => ?_⟩
  simp [waitBlocks, stop, cancelRoot, h]

/-- C9, witness at the terminated state (root canceled, finished closed). -/
theorem c9_stop_idempotent_wait_witness :
    stop (stop { canceled := true, finishedClosed := true })
        = stop { canceled := true, finishedClosed := true }
      ∧ (waitBlocks { canceled := true, finishedClosed := true } = false
          ∧ waitBlocks (stop { canceled := true, finishedClosed := true }) = false) :=
  ⟨(c9_stop_idempotent_wait { canceled := true, finishedClosed := true }).1,
    (c9_stop_idempotent_wait { canceled := true, finishedClosed := true }).2 rfl⟩

/-- C10.  With `NumHandlers = 0` the semaphore is constructed empty and no
action can ever make a token appear, so slot acquisition never succeeds; an
iteration whose acquisition select fell to `ctx.Done()` performs no
PreDequeue call and no `store.Dequeue` call and returns `ctx.Err()`; and a
loop fed only by such blocked iterations (which return only once the root
context is canceled) never exits with reason "MaxActiveTime elapsed" — the
shutdown timer is observed only in the post-iteration select, which such an
iteration never reaches. -/
theorem c10_zero_handlers (ls : List SemLabel) (s' : SemState) (w : WorkerEnv)
    (steps : List IterStep) (t nd : Int) :
    (semRun ls (semInit 0) = some s' →
        s'.free = 0 ∧ s'.running = 0 ∧ s'.mainHeld = 0
          ∧ semStep SemLabel.acquire s' = none)
      ∧ (w.semAcquired = false →
        dequeueAndHandle w
            = { dequeued := false, err := w.rootCtx.err, sync := [], activity := none }
          ∧ (dequeueAndHandle w).sync.countP isPreDequeueEv = 0
          ∧ (dequeueAndHandle w).sync.countP isDequeueEv = 0)
      ∧ ((∀ s ∈ steps, ∃ (w' : WorkerEnv) (ce : Err) (sel : SelOutcome),
            w'.semAcquired = false ∧ w'.rootCtx.err = some ce
              ∧ s = stepOf w' (w'.rootCtx.err) sel) →
        ∀ k : Int, runLoop t nd steps ≠ LoopExit.exited "MaxActiveTime elapsed" k) := by
  refine ⟨fun h => ?_, fun hSem => ?_, fun hall k hbad => ?_⟩
  · have hsum := semRun_sum ls (semInit 0) s' h
    simp [semInit] at hsum
    have hf : s'.free = 0 := by omega
    exact ⟨hf, by omega, by omega, by simp [semStep, hf]⟩
  · exact ⟨by simp [dequeueAndHandle, hSem], by simp [dequeueAndHandle, hSem],
      by simp [dequeueAndHandle, hSem]⟩
  · rcases steps with _ | ⟨s, rest⟩
    · rw [runLoop.eq_def] at hbad
      by_cases hcap : t ≠ 0 ∧ nd ≥ t
      · simp [hcap] at hbad
      · simp [hcap] at hbad
    · obtain ⟨w', ce, sel', hsem', hce, rfl⟩ := hall s (List.mem_cons_self s rest)
      rw [runLoop.eq_def] at hbad
      by_cases hcap : t ≠ 0 ∧ nd ≥ t
      · simp [hcap] at hbad
      · simp [hcap, stepOf, dequeueAndHandle, hsem', hce, loopErrorReaction,
          errorsIs, errorsIsE_refl] at hbad

/-- A blocked iteration: zero handler slots, root context canceled. -/
def wBlocked : WorkerEnv :=
  { envBase with semAcquired := false, rootCtx := { err := some canceledErr } }

/-- C10, witness: the state after the empty action run at capacity zero, the
blocked concrete run `wBlocked`, and a one-step blocked script with
`MaxActiveTime` armed. -/
theorem c10_zero_handlers_witness :
    ((semInit 0).free = 0 ∧ (semInit 0).running = 0 ∧ (semInit 0).mainHeld = 0
        ∧ semStep SemLabel.acquire (semInit 0) = none)
      ∧ (dequeueAndHandle wBlocked
            = { dequeued := false, err := wBlocked.rootCtx.err, sync := [],
                activity := none }
          ∧ (dequeueAndHandle wBlocked).sync.countP isPreDequeueEv = 0
          ∧ (dequeueAndHandle wBlocked).sync.countP isDequeueEv = 0)
      ∧ (∀ k : Int,
          runLoop 5 0 [stepOf wBlocked wBlocked.rootCtx.err SelOutcome.delayElapsed]
            ≠ LoopExit.exited "MaxActiveTime elapsed" k) :=
  ⟨(c10_zero_handlers [] (semInit 0) wBlocked
      [stepOf wBlocked wBlocked.rootCtx.err SelOutcome.delayElapsed] 5 0).1 rfl,
    (c10_zero_handlers [] (semInit 0) wBlocked
      [stepOf wBlocked wBlocked.rootCtx.err SelOutcome.delayElapsed] 5 0).2.1 rfl,
    (c10_zero_handlers [] (semInit 0) wBlocked
      [stepOf wBlocked wBlocked.rootCtx.err SelOutcome.delayElapsed] 5 0).2.2
      (fun _s hs =>
        ⟨wBlocked, canceledErr, SelOutcome.delayElapsed, rfl, rfl,
          List.mem_singleton.mp hs⟩)⟩
